import Mathlib

/-!
Verification of `mitene_download.py` (album media downloader).

The development shallowly embeds the program's core:
  * a functional file-system model (`FS`) with the `.tmp`-then-rename durable
    write pattern (`writeAtomic`, and its interruption-point model `writeStates`),
  * the per-item fetcher `download_media` and comment writer `save_comments`,
  * the pagination / authentication loop of `async_main` (`runLoop`),
  * destination-filename construction (`buildFilename`, using a faithful model
    of `os.path.splitext`),
  * the bounded-concurrency scheduler `gather_with_concurrency` as a small-step
    transition system over task states guarded by a semaphore.

External library calls (`urllib.parse.urlparse(·).path`, `mimetypes.guess_extension`,
the HTML scraping of one vendor page) are oracles passed as function parameters,
matching the spec's treatment of them as opaque collaborators.
-/

namespace MiteneDownload

/-- A file system: each path maps to the file's content, or `none` if absent. -/
abbrev FS := String → Option String

/-- Write (create or truncate) the file at path `p` with content `c`. -/
def fsSet (fs : FS) (p c : String) : FS :=
  fun q => if q = p then some c else fs q

/-- `os.rename a b`: `b` receives `a`'s content, `a` disappears. -/
def fsRename (fs : FS) (a b : String) : FS :=
  fun q => if q = b then fs a else if q = a then none else fs q

/-- The empty file system. -/
def fsEmpty : FS := fun _ => none

/-- A comment's author (`comment["user"]`). -/
structure CUser where
  nickname : String
deriving DecidableEq

/-- One comment of a media item. -/
structure Comment where
  user : CUser
  body : String
  isDeleted : Bool
deriving DecidableEq

/-- One media item as parsed from `gon.media["mediaFiles"]`. -/
structure Media where
  uuid : String
  tookAt : String
  contentType : String
  expiringUrl : String
  expiringVideoUrl : Option String
  comments : List Comment
deriving DecidableEq

/-- `media.get("expiringVideoUrl", media["expiringUrl"])`. -/
def chosenUrl (m : Media) : String :=
  match m.expiringVideoUrl with
  | some u => u
  | none => m.expiringUrl

/-- Index of the last occurrence of `c` in `l` (accumulator form). -/
def lastIdxAux (c : Char) : List Char → Nat → Option Nat → Option Nat
  | [], _, acc => acc
  | x :: xs, i, acc => lastIdxAux c xs (i + 1) (if x = c then some i else acc)

/-- Index of the last occurrence of `c` in `l`, like Python's `str.rfind`. -/
def lastIdx (l : List Char) (c : Char) : Option Nat :=
  lastIdxAux c l 0 none

/-- `os.path.splitext` (POSIX): split off the extension at the last dot that
occurs after the last path separator, unless every character between the
separator and that dot is itself a dot (leading dots carry no extension). -/
def splitext (p : String) : String × String :=
  let l := p.toList
  let start : Nat :=
    match lastIdx l '/' with
    | none => 0
    | some i => i + 1
  match lastIdx l '.' with
  | none => (p, "")
  | some d =>
    if start ≤ d then
      if (List.range d).any (fun j => decide (start ≤ j) && !(l.getD j '.' == '.')) then
        (String.mk (l.take d), String.mk (l.drop d))
      else (p, "")
    else (p, "")

/-- Root part of `os.path.splitext`. -/
def splitextRoot (p : String) : String := (splitext p).1

/-- Extension part of `os.path.splitext`. -/
def splitextExt (p : String) : String := (splitext p).2

/-- The rendered block for one comment: `**author**: body` plus a blank line. -/
def commentLine (c : Comment) : String :=
  "**" ++ c.user.nickname ++ "**: " ++ c.body ++ "\n\n"

/-- Content written by the `save_comments` loop: non-deleted comments in order,
each as a `commentLine` block (deleted comments are skipped). -/
def renderComments (cs : List Comment) : String :=
  cs.foldl (fun acc c => if c.isDeleted then acc else acc ++ commentLine c) ""

/-- Concatenation of a list of strings in order. -/
def concatLines : List String → String
  | [] => ""
  | s :: rest => s ++ concatLines rest

/-- Durable write: put the content at `path ++ ".tmp"`, then rename onto `path`. -/
def writeAtomic (fs : FS) (path content : String) : FS :=
  fsRename (fsSet fs (path ++ ".tmp") content) (path ++ ".tmp") path

/-- `save_comments`: write the rendered comments to the sibling `.md` path via
the `.tmp`-then-rename pattern. -/
def save_comments (destination_filename : String) (comments : List Comment) (fs : FS) : FS :=
  writeAtomic fs (splitextRoot destination_filename ++ ".md") (renderComments comments)

/-- `download_media`: if the destination exists, do nothing (no request, no
write). Otherwise open the `.tmp` file (creating it empty), issue the GET
(`net url = none` models `raise_for_status` failing: the empty `.tmp` remains
and the exception propagates), stream the body, rename onto the destination,
and, when the comment list is non-empty, run `save_comments`. Returns the new
file system, the list of network requests issued, and whether it completed. -/
def download_media (net : String → Option String) (url destination_filename : String)
    (media : Media) (fs : FS) : FS × List String × Bool :=
  match fs destination_filename with
  | some _ => (fs, [], true)
  | none =>
    let fs1 := fsSet fs (destination_filename ++ ".tmp") ""
    match net url with
    | none => (fs1, [url], false)
    | some content =>
      let fs2 := writeAtomic fs1 destination_filename content
      if media.comments = [] then (fs2, [url], true)
      else (save_comments destination_filename media.comments fs2, [url], true)

/-- All intermediate file systems of one durable write of `chunks` to `path`:
the initial state, the state after opening the `.tmp` file, the state after
each chunk, and the state after the final rename. An interrupted write stops
at one of these states. -/
def writeStates (fs : FS) (path : String) (chunks : List String) : List FS :=
  (fs :: (List.range (chunks.length + 1)).map
      (fun i => fsSet fs (path ++ ".tmp") (concatLines (chunks.take i))))
    ++ [writeAtomic fs path (concatLines chunks)]

/-- Replace every `:` with the empty string (`filename.replace(":", "")`). -/
def stripColons (s : String) : String :=
  String.mk (s.toList.filter (fun c => !(c == ':')))

/-- `os.path.join(a, b)` for one component. -/
def pathJoin (a b : String) : String :=
  if b.toList.head? = some '/' then b
  else if a = "" ∨ a.toList.getLast? = some '/' then a ++ b
  else a ++ "/" ++ b

/-- `path.split("/")[-1]`: everything after the last slash (the whole string
when there is none). -/
def lastComponent (s : String) : String :=
  String.mk ((s.toList.reverse.takeWhile (fun c => !(c == '/'))).reverse)

/-- The filename before the extension check: last component of the URL path of
the chosen download URL (`urlpath` models `urllib.parse.urlparse(·).path`),
prefixed with the capture timestamp, with colons removed on Windows. -/
def mediaRawFilename (urlpath : String → String) (isWindows : Bool) (m : Media) : String :=
  let fname := lastComponent (urlpath (chosenUrl m))
  let fname := m.tookAt ++ "-" ++ fname
  if isWindows then stripColons fname else fname

/-- Destination filename construction: when the raw name has no extension the
extension is guessed from the content type (`guess` models
`mimetypes.guess_extension`); `none` models the `TypeError` raised by
concatenating a string with `None` when the guess fails. -/
def buildFilename (urlpath : String → String) (isWindows : Bool)
    (guess : String → Option String) (m : Media) : Option String :=
  let fname := mediaRawFilename urlpath isWindows m
  if splitextExt fname = "" then
    match guess m.contentType with
    | none => none
    | some e => some (fname ++ e)
  else some fname

/-- The ways the enumeration loop of `async_main` can terminate abnormally. -/
inductive RunErr where
  /-- Challenge present, no `--password` given: message plus `sys.exit(1)`. -/
  | missingPassword
  /-- `split('name="authenticity_token" value="')[1]` raised `IndexError`. -/
  | tokenParseErr
  /-- `assert authenticity_token` failed. -/
  | emptyTokenAssert
  /-- Login response URL still ends in `/login`: message plus `sys.exit(1)`. -/
  | authFailed
  /-- The CDATA item-listing split raised `IndexError` (unrecognized page). -/
  | pageFormatErr
  /-- `filename + None` raised `TypeError` (unknown content type). -/
  | filenameTypeErr
deriving DecidableEq

/-- A fetched album page, as the scraping of `async_main` classifies it:
either the password challenge page (with the authenticity token it carries,
if any), or a page with its embedded media listing. -/
inductive Response where
  /-- The response contains `"Please enter your password"`. -/
  | challenge (token : Option String)
  /-- The response's `gon.media` block lists these media files. -/
  | listing (medias : List Media)

/-- The body of the `for media in data["mediaFiles"]` loop: build each
destination filename, failing like the `TypeError` when construction fails. -/
def collectMedias (dir : String) (urlpath : String → String) (isWindows : Bool)
    (guess : String → Option String) : List Media → Except RunErr (List (String × Media))
  | [] => .ok []
  | m :: ms =>
    match buildFilename urlpath isWindows guess m with
    | none => .error .filenameTypeErr
    | some f =>
      match collectMedias dir urlpath isWindows guess ms with
      | .error e => .error e
      | .ok rest => .ok ((pathJoin dir f, m) :: rest)

/-- The `while True` enumeration loop of `async_main`. `fetch authed page`
gives the (classified) response of `GET {album_url}?page={page}` in the given
authentication state; `loginOk` tells whether the login POST redirects away
from `/login`. State: remaining fuel, authenticated flag, page index,
accumulated `download_coroutines` (destination, media) pairs, and the number
of login POSTs made. `none` means the fuel ran out (the loop did not finish).
-/
def runLoop (fetch : Bool → Nat → Response) (password : Option String) (loginOk : Bool)
    (dir : String) (urlpath : String → String) (isWindows : Bool)
    (guess : String → Option String) :
    Nat → Bool → Nat → List (String × Media) → Nat →
    Option (Except RunErr (List (String × Media)) × Nat)
  | 0, _, _, _, _ => none
  | fuel + 1, authed, page, acc, posts =>
    match fetch authed page with
    | .challenge token =>
      if page = 1 then
        match password with
        | none => some (.error .missingPassword, posts)
        | some _ =>
          match token with
          | none => some (.error .tokenParseErr, posts)
          | some t =>
            if t = "" then some (.error .emptyTokenAssert, posts)
            else if loginOk then
              runLoop fetch password loginOk dir urlpath isWindows guess
                fuel true page acc (posts + 1)
            else some (.error .authFailed, posts + 1)
      else some (.error .pageFormatErr, posts)
    | .listing ms =>
      if ms = [] then some (.ok acc, posts)
      else
        match collectMedias dir urlpath isWindows guess ms with
        | .error e => some (.error e, posts)
        | .ok cs =>
          runLoop fetch password loginOk dir urlpath isWindows guess
            fuel authed (page + 1) (acc ++ cs) posts

/-- Download requests that get issued: the collected coroutines are awaited
(by `gather_with_concurrency`) only when the enumeration loop completes
normally; on a fatal error nothing is ever awaited. -/
def downloadsIssued :
    Option (Except RunErr (List (String × Media)) × Nat) → List (String × Media)
  | some (.ok l, _) => l
  | _ => []

/-- Process exit status of the enumeration phase: fatal errors exit `1`
(either via `sys.exit(1)` or via an uncaught exception). -/
def runExitCode : Option (Except RunErr (List (String × Media)) × Nat) → Option Nat
  | some (.ok _, _) => some 0
  | some (.error _, _) => some 1
  | none => none

/-- The concurrency limit `async_main` passes to `gather_with_concurrency`. -/
def concurrencyLimit : Nat := 4

/-- Status of one `sem_task` in `gather_with_concurrency`: waiting at
`semaphore.acquire()`, running its body (`steps` suspension points left,
`fails` tells whether the body ends by raising), finished normally, or
finished by raising. -/
inductive TaskSt where
  /-- Blocked on `async with semaphore`, body not yet started. -/
  | waiting (steps : Nat) (fails : Bool)
  /-- Semaphore held, body running with `steps` awaits remaining. -/
  | active (steps : Nat) (fails : Bool)
  /-- Body returned; semaphore released. -/
  | done
  /-- Body raised; semaphore released on `async with` exit. -/
  | failed
deriving DecidableEq

/-- State of `gather_with_concurrency`: the wrapped tasks and the semaphore's
current count. -/
structure Sched where
  tasks : List TaskSt
  sem : Nat
deriving DecidableEq

/-- Whether a task holds the semaphore and its fetch body has started and not
yet finished. -/
def isActive : TaskSt → Bool
  | .active _ _ => true
  | _ => false

/-- Number of fetch bodies started and not yet finished. -/
def activeCount (s : Sched) : Nat := s.tasks.countP isActive

/-- Initial state of `gather_with_concurrency n tasks`: every task waiting,
semaphore at `n`. Each body is given as (number of awaits, raises?). -/
def initSched (n : Nat) (bodies : List (Nat × Bool)) : Sched :=
  ⟨bodies.map (fun b => TaskSt.waiting b.1 b.2), n⟩

/-- One event-loop step of `gather_with_concurrency`: a waiting task acquires
the semaphore when its count is positive; an active task advances one await;
an exhausted body finishes (normally or by raising), releasing the semaphore. -/
inductive Step : Sched → Sched → Prop where
  /-- `semaphore.acquire()` succeeds: count positive, task becomes active. -/
  | acquire (s : Sched) (i k : Nat) (f : Bool) (m : Nat) :
      s.tasks.get? i = some (.waiting k f) → s.sem = m + 1 →
      Step s ⟨s.tasks.set i (.active k f), m⟩
  /-- The body passes one suspension point. -/
  | work (s : Sched) (i k : Nat) (f : Bool) :
      s.tasks.get? i = some (.active (k + 1) f) →
      Step s ⟨s.tasks.set i (.active k f), s.sem⟩
  /-- The body returns; `async with` releases the semaphore. -/
  | finishOk (s : Sched) (i : Nat) :
      s.tasks.get? i = some (.active 0 false) →
      Step s ⟨s.tasks.set i .done, s.sem + 1⟩
  /-- The body raises; `async with` releases the semaphore on unwind. -/
  | finishFail (s : Sched) (i : Nat) :
      s.tasks.get? i = some (.active 0 true) →
      Step s ⟨s.tasks.set i .failed, s.sem + 1⟩

/-- Reachability under `Step`. -/
inductive Reach : Sched → Sched → Prop where
  | refl (s : Sched) : Reach s s
  | tail {a b c : Sched} : Reach a b → Step b c → Reach a c

/-- The awaiting run (`await gather_with_concurrency ...` inside
`async_main`, driven by `run_until_complete`): the scheduler state plus
whether the run has terminated. -/
structure Run where
  sched : Sched
  halted : Bool
deriving DecidableEq

/-- A step of the whole run. Besides scheduler steps, once any task has
failed, `asyncio.gather` (called without `return_exceptions=True`) delivers
that first exception to its awaiter; `async_main` re-raises, the event loop
stops, and every task not yet finished is abandoned where it stands. -/
inductive RunStep : Run → Run → Prop where
  /-- An ordinary scheduler step while the run is live. -/
  | sched {s t : Sched} : Step s t → RunStep ⟨s, false⟩ ⟨t, false⟩
  /-- First-failure propagation: the run halts, freezing all other tasks. -/
  | abort (s : Sched) (i : Nat) :
      s.tasks.get? i = some .failed → RunStep ⟨s, false⟩ ⟨s, true⟩

/-- Reachability under `RunStep`. -/
inductive RReach : Run → Run → Prop where
  | refl (r : Run) : RReach r r
  | tail {a b c : Run} : RReach a b → RunStep b c → RReach a c

/-! ## Helper lemmas -/

/-- A path never equals its own `.tmp` sibling. -/
theorem tmp_ne (p : String) : p ++ ".tmp" ≠ p := by
  intro h
  have hl := congrArg String.length h
  rw [String.length_append, show (".tmp" : String).length = 4 from rfl] at hl
  omega

/-- Unfolding the comment-rendering fold with an arbitrary accumulator. -/
theorem foldl_render (cs : List Comment) (acc : String) :
    cs.foldl (fun a c => if c.isDeleted then a else a ++ commentLine c) acc
      = acc ++ concatLines ((cs.filter (fun c => !c.isDeleted)).map commentLine) := by
  induction cs generalizing acc with
  | nil => simp [concatLines]
  | cons c cs ih =>
    by_cases hc : c.isDeleted <;>
      simp [hc, ih, concatLines, String.append_assoc]

/-- `renderComments` is the concatenation of the rendered non-deleted comments. -/
theorem renderComments_eq (cs : List Comment) :
    renderComments cs = concatLines ((cs.filter (fun c => !c.isDeleted)).map commentLine) := by
  simpa using foldl_render cs ""

/-- When every comment is deleted, the rendered content is empty. -/
theorem renderComments_all_deleted (cs : List Comment)
    (h : ∀ c ∈ cs, c.isDeleted = true) : renderComments cs = "" := by
  rw [renderComments_eq]
  have : cs.filter (fun c => !c.isDeleted) = [] := by
    rw [List.filter_eq_nil_iff]
    intro c hc
    simp [h c hc]
  rw [this]
  rfl

/-- The destinations built by `collectMedias` pair each media with a filename:
projecting the medias back out returns the input list. -/
theorem collectMedias_map_snd (dir : String) (up : String → String) (iw : Bool)
    (g : String → Option String) :
    ∀ (ms : List Media) (l : List (String × Media)),
      collectMedias dir up iw g ms = .ok l → l.map Prod.snd = ms := by
  intro ms
  induction ms with
  | nil =>
    intro l h
    simp [collectMedias] at h
    simp [← h]
  | cons m ms ih =>
    intro l h
    unfold collectMedias at h
    cases hb : buildFilename up iw g m with
    | none => rw [hb] at h; cases h
    | some f =>
      rw [hb] at h
      cases hc : collectMedias dir up iw g ms with
      | error e => rw [hc] at h; cases h
      | ok rest =>
        rw [hc] at h
        cases h
        simp [ih rest hc]

/-- Splitting the concatenation over `List.range (j + 1)` at the head. -/
theorem flatten_range_succ {α : Type} (f : Nat → List α) (j : Nat) :
    ((List.range (j + 1)).map f).flatten
      = f 0 ++ ((List.range j).map (fun t => f (t + 1))).flatten := by
  rw [List.range_succ_eq_map]
  simp [List.map_map, Function.comp_def]

/-- One iteration of the enumeration loop on the empty page: the loop stops. -/
theorem runLoop_listing_empty (fetch : Bool → Nat → Response) (pw : Option String)
    (lo : Bool) (dir : String) (up : String → String) (iw : Bool)
    (g : String → Option String) (fuel : Nat) (authed : Bool) (page : Nat)
    (acc : List (String × Media)) (posts : Nat)
    (hf : fetch authed page = .listing []) :
    runLoop fetch pw lo dir up iw g (fuel + 1) authed page acc posts
      = some (.ok acc, posts) := by
  conv_lhs => rw [runLoop]
  rw [hf]
  simp

/-- One iteration of the enumeration loop on a non-empty page whose filenames
all construct: collect the page's work and move to the next page. -/
theorem runLoop_listing_ok (fetch : Bool → Nat → Response) (pw : Option String)
    (lo : Bool) (dir : String) (up : String → String) (iw : Bool)
    (g : String → Option String) (fuel : Nat) (authed : Bool) (page : Nat)
    (acc : List (String × Media)) (posts : Nat) (ms : List Media)
    (cs2 : List (String × Media))
    (hf : fetch authed page = .listing ms) (hms : ms ≠ [])
    (hc : collectMedias dir up iw g ms = .ok cs2) :
    runLoop fetch pw lo dir up iw g (fuel + 1) authed page acc posts
      = runLoop fetch pw lo dir up iw g fuel authed (page + 1) (acc ++ cs2) posts := by
  conv_lhs => rw [runLoop]
  rw [hf]
  simp [hms, hc]

/-- One iteration of the enumeration loop on a non-empty page on which a
destination filename fails to construct: the run aborts with that error. -/
theorem runLoop_listing_err (fetch : Bool → Nat → Response) (pw : Option String)
    (lo : Bool) (dir : String) (up : String → String) (iw : Bool)
    (g : String → Option String) (fuel : Nat) (authed : Bool) (page : Nat)
    (acc : List (String × Media)) (posts : Nat) (ms : List Media) (e : RunErr)
    (hf : fetch authed page = .listing ms) (hms : ms ≠ [])
    (hc : collectMedias dir up iw g ms = .error e) :
    runLoop fetch pw lo dir up iw g (fuel + 1) authed page acc posts
      = some (.error e, posts) := by
  conv_lhs => rw [runLoop]
  rw [hf]
  simp [hms, hc]

/-- The enumeration loop over a pure listing fetcher: starting at page `p`
with `j` non-empty pages followed by an empty one, it collects exactly the
per-page work lists in page order, appended to the accumulator. -/
theorem runLoop_pages (pw : Option String) (lo : Bool) (dir : String)
    (up : String → String) (iw : Bool) (g : String → Option String)
    (pg : Nat → List Media) (cs : Nat → List (String × Media)) :
    ∀ (j p : Nat) (acc : List (String × Media)) (posts : Nat),
      (∀ t, t < j → pg (p + t) ≠ []) →
      (∀ t, t < j → collectMedias dir up iw g (pg (p + t)) = .ok (cs (p + t))) →
      pg (p + j) = [] →
      runLoop (fun _ q => .listing (pg q)) pw lo dir up iw g (j + 1) false p acc posts
        = some (.ok (acc ++ ((List.range j).map (fun t => cs (p + t))).flatten), posts) := by
  intro j
  induction j with
  | zero =>
    intro p acc posts _ _ hend
    rw [Nat.add_zero] at hend
    rw [runLoop_listing_empty _ _ _ _ _ _ _ _ _ _ _ _ (by rw [hend])]
    simp
  | succ j ih =>
    intro p acc posts hne hok hend
    have h0 : pg p ≠ [] := by simpa using hne 0 (Nat.succ_pos j)
    have hc0 : collectMedias dir up iw g (pg p) = .ok (cs p) := by
      simpa using hok 0 (Nat.succ_pos j)
    have hne' : ∀ t, t < j → pg (p + 1 + t) ≠ [] := by
      intro t ht
      have := hne (t + 1) (Nat.succ_lt_succ ht)
      rwa [show p + (t + 1) = p + 1 + t by omega] at this
    have hok' : ∀ t, t < j → collectMedias dir up iw g (pg (p + 1 + t)) = .ok (cs (p + 1 + t)) := by
      intro t ht
      have := hok (t + 1) (Nat.succ_lt_succ ht)
      rwa [show p + (t + 1) = p + 1 + t by omega] at this
    have hend' : pg (p + 1 + j) = [] := by
      rwa [show p + (j + 1) = p + 1 + j by omega] at hend
    have hrec := ih (p + 1) (acc ++ cs p) posts hne' hok' hend'
    rw [runLoop_listing_ok _ _ _ _ _ _ _ _ _ _ _ _ (pg p) (cs p) rfl h0 hc0]
    rw [hrec]
    have hshift : (fun t => cs (p + (t + 1))) = (fun t => cs (p + 1 + t)) :=
      funext fun t => congrArg cs (by omega)
    rw [flatten_range_succ (fun t => cs (p + t)) j, hshift, List.append_assoc]
    simp

/-- Replacing an element changes `countP` by the difference of the two
elements' predicate values (addition-only form). -/
theorem countP_set_get {α : Type} (p : α → Bool) :
    ∀ (l : List α) (i : Nat) (u v : α), l.get? i = some u →
      (l.set i v).countP p + (if p u then 1 else 0)
        = l.countP p + (if p v then 1 else 0) := by
  intro l
  induction l with
  | nil => intro i u v h; cases h
  | cons a as ih =>
    intro i u v h
    cases i with
    | zero =>
      injection h with h
      subst h
      simp [List.countP_cons]
      omega
    | succ n =>
      have := ih n u v h
      simp [List.countP_cons]
      omega

/-- Reading back the set index. -/
theorem get?_set_self {α : Type} :
    ∀ (l : List α) (i : Nat) (a b : α), l.get? i = some a →
      (l.set i b).get? i = some b := by
  intro l
  induction l with
  | nil => intro i a b h; cases h
  | cons x xs ih =>
    intro i a b h
    cases i with
    | zero => rfl
    | succ n => exact ih n a b h

/-- Reading any other index after a set. -/
theorem get?_set_ne {α : Type} :
    ∀ (l : List α) (i j : Nat) (b : α), i ≠ j →
      (l.set i b).get? j = l.get? j := by
  intro l
  induction l with
  | nil => intro i j b _; cases i <;> rfl
  | cons x xs ih =>
    intro i j b hij
    cases i with
    | zero =>
      cases j with
      | zero => exact absurd rfl hij
      | succ m => rfl
    | succ n =>
      cases j with
      | zero => rfl
      | succ m => exact ih n m b (fun he => hij (by rw [he]))

/-- Semaphore invariant of `gather_with_concurrency`: the semaphore count plus
the number of active fetch bodies always equals the limit `n`. -/
theorem sched_inv (n : Nat) (bodies : List (Nat × Bool)) (s : Sched)
    (h : Reach (initSched n bodies) s) : s.sem + activeCount s = n := by
  induction h with
  | refl =>
    have hz : activeCount (initSched n bodies) = 0 := by
      unfold activeCount initSched
      simp [isActive]
    rw [hz]
    simp [initSched]
  | tail hr hs ih =>
    cases hs with
    | acquire i k f m hget hsem =>
      have heq := countP_set_get isActive _ i _ (TaskSt.active k f) hget
      simp [isActive] at heq
      simp [activeCount] at ih ⊢
      omega
    | work i k f hget =>
      have heq := countP_set_get isActive _ i _ (TaskSt.active k f) hget
      simp [isActive] at heq
      simp [activeCount] at ih ⊢
      omega
    | finishOk i hget =>
      have heq := countP_set_get isActive _ i _ TaskSt.done hget
      simp [isActive] at heq
      simp [activeCount] at ih ⊢
      omega
    | finishFail i hget =>
      have heq := countP_set_get isActive _ i _ TaskSt.failed hget
      simp [isActive] at heq
      simp [activeCount] at ih ⊢
      omega

/-! ## Claim theorems -/

/-- C1: if the item's final media path already exists, `download_media`
performs no network request and writes nothing — the file system is returned
unchanged (so neither the media file nor the comment file is (re)written) and
the request list is empty. -/
theorem download_media_skips_existing (net : String → Option String)
    (url dest : String) (m : Media) (fs : FS) (c : String)
    (h : fs dest = some c) :
    download_media net url dest m fs = (fs, [], true) := by
  unfold download_media
  rw [h]

/-- Witness for C1 at a concrete file system that already holds the media. -/
theorem download_media_skips_existing_witness :
    (fun q => if q = "out/a.jpg" then some "X" else none : FS) "out/a.jpg" = some "X" ∧
    download_media (fun _ => some "Y") "u" "out/a.jpg"
        ⟨"u1", "2020", "image/jpeg", "https://h/a.jpg", none, []⟩
        (fun q => if q = "out/a.jpg" then some "X" else none) =
      ((fun q => if q = "out/a.jpg" then some "X" else none : FS), [], true) :=
  ⟨rfl, download_media_skips_existing _ _ _ _ _ "X" rfl⟩

/-- C2: every durable write goes through `path ++ ".tmp"` and only then renames
onto `path`; at every interruption point of the write (`writeStates`), if the
final path did not exist beforehand it either still does not exist or holds the
complete content, and every other path except the `.tmp` sibling is untouched
(so on failure before the rename only the `.tmp` file may remain). -/
theorem write_atomic_interruption (fs : FS) (path : String) (chunks : List String)
    (h : fs path = none) :
    ∀ s ∈ writeStates fs path chunks,
      (s path = none ∨ s path = some (concatLines chunks)) ∧
      (∀ q, q ≠ path → q ≠ path ++ ".tmp" → s q = fs q) := by
  have hne : ¬ path = path ++ ".tmp" := fun hp => tmp_ne path hp.symm
  intro s hs
  rcases List.mem_append.1 hs with hs | hs
  · rcases List.mem_cons.1 hs with rfl | hs
    · exact ⟨Or.inl h, fun q _ _ => rfl⟩
    · rcases List.mem_map.1 hs with ⟨i, _, rfl⟩
      refine ⟨Or.inl ?_, fun q _ hq2 => ?_⟩
      · simpa [fsSet, hne] using h
      · simp [fsSet, hq2]
  · rcases List.mem_singleton.1 hs with rfl
    refine ⟨Or.inr ?_, fun q hq1 hq2 => ?_⟩
    · simp [writeAtomic, fsRename, fsSet]
    · simp [writeAtomic, fsRename, fsSet, hq1, hq2]

/-- Witness for C2 on a two-chunk write into the empty file system. -/
theorem write_atomic_interruption_witness :
    fsEmpty "a" = none ∧
    ∀ s ∈ writeStates fsEmpty "a" ["x", "y"],
      (s "a" = none ∨ s "a" = some (concatLines ["x", "y"])) ∧
      (∀ q, q ≠ "a" → q ≠ "a" ++ ".tmp" → s q = fsEmpty q) :=
  ⟨rfl, write_atomic_interruption fsEmpty "a" ["x", "y"] rfl⟩

/-- C4 fails on the code: for an item whose (non-empty) comments are all
deleted, `download_media` still calls `save_comments`, which creates the
`.tmp` file, writes nothing, and renames it — so the sibling `.md` file does
exist afterwards (with empty content), at this concrete input. -/
theorem download_media_all_deleted_comments_cex :
    (download_media (fun _ => some "JPG") "u2" "out/2020-a.jpg"
        ⟨"u1", "2020", "image/jpeg", "https://h/a.jpg", none, [⟨⟨"B"⟩, "x", true⟩]⟩
        fsEmpty).1 (splitextRoot "out/2020-a.jpg" ++ ".md") = some "" ∧
    ([(⟨⟨"B"⟩, "x", true⟩ : Comment)] ≠ []) ∧
    (∀ c ∈ [(⟨⟨"B"⟩, "x", true⟩ : Comment)], c.isDeleted = true) := by
  decide

/-- C4 as amended: for every item whose comment list is non-empty but whose
comments are all marked deleted, a successful `download_media` writes an
*empty* comment file — the sibling `.md` path exists with content `""`. -/
theorem download_media_all_deleted_comments_empty_file
    (net : String → Option String) (url dest content : String) (m : Media) (fs : FS)
    (hd : fs dest = none) (hn : net url = some content)
    (hne : m.comments ≠ []) (hdel : ∀ c ∈ m.comments, c.isDeleted = true) :
    (download_media net url dest m fs).1 (splitextRoot dest ++ ".md") = some "" := by
  have hrc : renderComments m.comments = "" := renderComments_all_deleted _ hdel
  unfold download_media
  rw [hd, hn]
  simp [hne, save_comments, writeAtomic, fsRename, fsSet, hrc]

/-- Witness for the amended C4 at a concrete all-deleted-comments item. -/
theorem download_media_all_deleted_comments_empty_file_witness :
    (download_media (fun _ => some "PNG") "u3" "out/2021-b.png"
        ⟨"u9", "2021", "image/png", "https://h/b.png", none,
          [⟨⟨"C"⟩, "y", true⟩, ⟨⟨"D"⟩, "z", true⟩]⟩
        fsEmpty).1 (splitextRoot "out/2021-b.png" ++ ".md") = some "" :=
  download_media_all_deleted_comments_empty_file _ _ _ "PNG" _ _ rfl rfl
    (by decide) (by decide)

/-- C9: the persisted comment file contains exactly the rendered non-deleted
comments, in order, each as a `**author**: body` block followed by a blank
line; and deleted comments contribute nothing (filtering them away first does
not change the rendered content). -/
theorem save_comments_content (dest : String) (cs : List Comment) (fs : FS) :
    save_comments dest cs fs (splitextRoot dest ++ ".md")
      = some (concatLines ((cs.filter (fun c => !c.isDeleted)).map commentLine)) ∧
    renderComments cs = renderComments (cs.filter (fun c => !c.isDeleted)) := by
  constructor
  · simp [save_comments, writeAtomic, fsRename, fsSet, renderComments_eq]
  · rw [renderComments_eq, renderComments_eq, List.filter_filter]
    simp

/-- C3: the enumeration loop fetches pages at strictly increasing indices
from 1 and stops at the first empty page: for a fetcher whose pages `1..k`
are non-empty and whose page `k+1` is empty, the collected work list is
exactly the per-page work of pages `1..k` concatenated in page order, and its
media components are exactly the items of pages `1..k` in page order. -/
theorem enumeration_collects_pages (k : Nat) (pg : Nat → List Media)
    (cs : Nat → List (String × Media)) (pw : Option String) (lo : Bool)
    (dir : String) (up : String → String) (iw : Bool) (g : String → Option String)
    (h1 : ∀ i, i < k → pg (1 + i) ≠ [])
    (h2 : ∀ i, i < k → collectMedias dir up iw g (pg (1 + i)) = .ok (cs (1 + i)))
    (h3 : pg (1 + k) = []) :
    runLoop (fun _ q => .listing (pg q)) pw lo dir up iw g (k + 1) false 1 [] 0
      = some (.ok (((List.range k).map (fun t => cs (1 + t))).flatten), 0) ∧
    (((List.range k).map (fun t => cs (1 + t))).flatten).map Prod.snd
      = ((List.range k).map (fun t => pg (1 + t))).flatten := by
  constructor
  · simpa using runLoop_pages pw lo dir up iw g pg cs k 1 [] 0 h1 h2 h3
  · rw [List.map_flatten, List.map_map]
    congr 1
    refine List.map_congr_left ?_
    intro i hi
    exact collectMedias_map_snd dir up iw g (pg (1 + i)) (cs (1 + i))
      (h2 i (List.mem_range.1 hi))

/-- Witness for C3: one non-empty page followed by an empty page. -/
theorem enumeration_collects_pages_witness :
    runLoop
        (fun _ q => .listing (if q = 1
          then [(⟨"u1", "2020", "image/jpeg", "https://h/a.jpg", none, []⟩ : Media)]
          else []))
        none false "out" (fun _ => "/a.jpg") false (fun _ => none) 2 false 1 [] 0
      = some (.ok (((List.range 1).map (fun t =>
          if 1 + t = 1
          then [("out/2020-a.jpg",
            (⟨"u1", "2020", "image/jpeg", "https://h/a.jpg", none, []⟩ : Media))]
          else [])).flatten), 0) ∧
    (((List.range 1).map (fun t =>
        if 1 + t = 1
        then [("out/2020-a.jpg",
          (⟨"u1", "2020", "image/jpeg", "https://h/a.jpg", none, []⟩ : Media))]
        else [])).flatten).map Prod.snd
      = ((List.range 1).map (fun t => if 1 + t = 1
          then [(⟨"u1", "2020", "image/jpeg", "https://h/a.jpg", none, []⟩ : Media)]
          else [])).flatten :=
  enumeration_collects_pages 1
    (fun q => if q = 1
      then [(⟨"u1", "2020", "image/jpeg", "https://h/a.jpg", none, []⟩ : Media)]
      else [])
    (fun q => if q = 1
      then [("out/2020-a.jpg",
        (⟨"u1", "2020", "image/jpeg", "https://h/a.jpg", none, []⟩ : Media))]
      else [])
    none false "out" (fun _ => "/a.jpg") false (fun _ => none)
    (by decide)
    (fun i hi => by interval_cases i; rfl)
    (by decide)

/-- C7: when a password was supplied but the login POST is rejected (the
response URL still ends in `/login`), the run terminates with exit status 1
after exactly one login POST, and zero item download requests are issued. -/
theorem login_rejected_aborts (fetch : Bool → Nat → Response) (p t : String)
    (dir : String) (up : String → String) (iw : Bool) (g : String → Option String)
    (fuel : Nat) (hc : fetch false 1 = .challenge (some t)) (ht : t ≠ "") :
    runLoop fetch (some p) false dir up iw g (fuel + 1) false 1 [] 0
      = some (.error .authFailed, 1) ∧
    runExitCode (runLoop fetch (some p) false dir up iw g (fuel + 1) false 1 [] 0)
      = some 1 ∧
    downloadsIssued (runLoop fetch (some p) false dir up iw g (fuel + 1) false 1 [] 0)
      = [] := by
  have h : runLoop fetch (some p) false dir up iw g (fuel + 1) false 1 [] 0
      = some (.error .authFailed, 1) := by
    conv_lhs => rw [runLoop]
    rw [hc]
    simp [ht]
  exact ⟨h, by rw [h]; rfl, by rw [h]; rfl⟩

/-- Witness for C7 with a stub fetcher that always shows the login page. -/
theorem login_rejected_aborts_witness :
    runLoop (fun _ _ => .challenge (some "tok")) (some "pw") false "out"
        (fun s => s) false (fun _ => none) 1 false 1 [] 0
      = some (.error .authFailed, 1) ∧
    runExitCode (runLoop (fun _ _ => .challenge (some "tok")) (some "pw") false "out"
        (fun s => s) false (fun _ => none) 1 false 1 [] 0)
      = some 1 ∧
    downloadsIssued (runLoop (fun _ _ => .challenge (some "tok")) (some "pw") false "out"
        (fun s => s) false (fun _ => none) 1 false 1 [] 0)
      = [] :=
  login_rejected_aborts (fun _ _ => .challenge (some "tok")) "pw" "tok" "out"
    (fun s => s) false (fun _ => none) 0 rfl (by decide)

/-- C8: when the first page carries the password challenge and no password was
supplied, the run aborts with exit status 1 before any download is scheduled:
no login POST is made (the POST count is 0) and no item fetch occurs. -/
theorem missing_password_aborts (fetch : Bool → Nat → Response) (tok : Option String)
    (lo : Bool) (dir : String) (up : String → String) (iw : Bool)
    (g : String → Option String) (fuel : Nat)
    (hc : fetch false 1 = .challenge tok) :
    runLoop fetch none lo dir up iw g (fuel + 1) false 1 [] 0
      = some (.error .missingPassword, 0) ∧
    runExitCode (runLoop fetch none lo dir up iw g (fuel + 1) false 1 [] 0)
      = some 1 ∧
    downloadsIssued (runLoop fetch none lo dir up iw g (fuel + 1) false 1 [] 0)
      = [] := by
  have h : runLoop fetch none lo dir up iw g (fuel + 1) false 1 [] 0
      = some (.error .missingPassword, 0) := by
    conv_lhs => rw [runLoop]
    rw [hc]
    simp
  exact ⟨h, by rw [h]; rfl, by rw [h]; rfl⟩

/-- Witness for C8 with a stub fetcher that shows the challenge page. -/
theorem missing_password_aborts_witness :
    runLoop (fun _ _ => .challenge (some "tok")) none false "out"
        (fun s => s) false (fun _ => none) 1 false 1 [] 0
      = some (.error .missingPassword, 0) ∧
    runExitCode (runLoop (fun _ _ => .challenge (some "tok")) none false "out"
        (fun s => s) false (fun _ => none) 1 false 1 [] 0)
      = some 1 ∧
    downloadsIssued (runLoop (fun _ _ => .challenge (some "tok")) none false "out"
        (fun s => s) false (fun _ => none) 1 false 1 [] 0)
      = [] :=
  missing_password_aborts (fun _ _ => .challenge (some "tok")) (some "tok") false
    "out" (fun s => s) false (fun _ => none) 0 rfl

/-- C10: for an item whose constructed filename has no extension and whose
content type is unknown to the guessing table, filename construction fails
(the `str + None` `TypeError`), and the run aborts before the item — or any
item — is dispatched: the loop yields the error and no download is issued. -/
theorem unknown_extension_aborts (dir : String) (up : String → String) (iw : Bool)
    (g : String → Option String) (m : Media) (ms : List Media)
    (fetch : Bool → Nat → Response) (pw : Option String) (lo : Bool) (fuel : Nat)
    (hext : splitextExt (mediaRawFilename up iw m) = "")
    (hg : g m.contentType = none)
    (hf : fetch false 1 = .listing (m :: ms)) :
    buildFilename up iw g m = none ∧
    runLoop fetch pw lo dir up iw g (fuel + 1) false 1 [] 0
      = some (.error .filenameTypeErr, 0) ∧
    downloadsIssued (runLoop fetch pw lo dir up iw g (fuel + 1) false 1 [] 0)
      = [] := by
  have hb : buildFilename up iw g m = none := by
    unfold buildFilename
    simp [hext, hg]
  have hcol : collectMedias dir up iw g (m :: ms) = .error .filenameTypeErr := by
    unfold collectMedias
    rw [hb]
  have hrun := runLoop_listing_err fetch pw lo dir up iw g fuel false 1 [] 0
    (m :: ms) .filenameTypeErr hf (by simp) hcol
  exact ⟨hb, hrun, by rw [hrun]; rfl⟩

/-- Witness for C10: an extension-less URL filename and an unknown content
type abort the run. -/
theorem unknown_extension_aborts_witness :
    buildFilename (fun _ => "/photo") false (fun _ => none)
        ⟨"u1", "2020", "application/x-foo", "https://h/photo", none, []⟩ = none ∧
    runLoop (fun _ _ => .listing
        [⟨"u1", "2020", "application/x-foo", "https://h/photo", none, []⟩])
        none false "out" (fun _ => "/photo") false (fun _ => none) 1 false 1 [] 0
      = some (.error .filenameTypeErr, 0) ∧
    downloadsIssued (runLoop (fun _ _ => .listing
        [⟨"u1", "2020", "application/x-foo", "https://h/photo", none, []⟩])
        none false "out" (fun _ => "/photo") false (fun _ => none) 1 false 1 [] 0)
      = [] :=
  unknown_extension_aborts "out" (fun _ => "/photo") false (fun _ => none)
    ⟨"u1", "2020", "application/x-foo", "https://h/photo", none, []⟩ []
    (fun _ _ => .listing
      [⟨"u1", "2020", "application/x-foo", "https://h/photo", none, []⟩])
    none false 0 (by decide) rfl rfl

/-- C6: in every state reachable by `gather_with_concurrency` with limit `n`
(the orchestrator passes `concurrencyLimit = 4`), the number of fetch bodies
that have started and not yet finished is at most `n`; and whenever a task is
still waiting while fewer than `n` are active, a step is enabled that starts
it — a freed slot is refilled from the backlog. -/
theorem gather_with_concurrency_bound (n : Nat) (bodies : List (Nat × Bool))
    (s : Sched) (h : Reach (initSched n bodies) s) :
    activeCount s ≤ n ∧
    ∀ i k f, s.tasks.get? i = some (.waiting k f) → activeCount s < n →
      ∃ t, Step s t ∧ activeCount t = activeCount s + 1 := by
  have hinv := sched_inv n bodies s h
  constructor
  · omega
  · intro i k f hget hlt
    have hsem : s.sem = (s.sem - 1) + 1 := by omega
    refine ⟨⟨s.tasks.set i (.active k f), s.sem - 1⟩,
      Step.acquire s i k f (s.sem - 1) hget hsem, ?_⟩
    have heq := countP_set_get isActive s.tasks i _ (TaskSt.active k f) hget
    simp [isActive] at heq
    simp [activeCount]
    omega

/-- Witness for C6 at the initial state with limit `concurrencyLimit`. -/
theorem gather_with_concurrency_bound_witness :
    activeCount (initSched concurrencyLimit [(1, false), (0, true)])
        ≤ concurrencyLimit ∧
    ∀ i k f, (initSched concurrencyLimit [(1, false), (0, true)]).tasks.get? i
        = some (.waiting k f) →
      activeCount (initSched concurrencyLimit [(1, false), (0, true)])
          < concurrencyLimit →
      ∃ t, Step (initSched concurrencyLimit [(1, false), (0, true)]) t ∧
        activeCount t
          = activeCount (initSched concurrencyLimit [(1, false), (0, true)]) + 1 :=
  gather_with_concurrency_bound concurrencyLimit [(1, false), (0, true)] _
    (Reach.refl _)

/-- C5 fails on the code: `asyncio.gather` is called without
`return_exceptions=True`, so the first failure propagates at once to
`async_main` and the run can halt with a dispatched sibling never having run.
Concretely, with limit 4 and two dispatched tasks of which the first fails,
the run reaches a halted state in which task 1 is still waiting — it did not
run to completion, and no failure collection took place. -/
theorem gather_first_failure_aborts_cex :
    RReach ⟨initSched 4 [(0, true), (0, false)], false⟩
        ⟨⟨[.failed, .waiting 0 false], 4⟩, true⟩ ∧
    (⟨⟨[.failed, .waiting 0 false], 4⟩, true⟩ : Run).halted = true ∧
    (⟨⟨[.failed, .waiting 0 false], 4⟩, true⟩ : Run).sched.tasks.get? 0
      = some .failed ∧
    (⟨⟨[.failed, .waiting 0 false], 4⟩, true⟩ : Run).sched.tasks.get? 1
      = some (.waiting 0 false) := by
  refine ⟨?_, rfl, rfl, rfl⟩
  refine RReach.tail (RReach.tail (RReach.tail (RReach.refl _)
    (RunStep.sched (Step.acquire ⟨[.waiting 0 true, .waiting 0 false], 4⟩ 0 0 true 3 rfl rfl)))
    (RunStep.sched (Step.finishFail ⟨[.active 0 true, .waiting 0 false], 3⟩ 0 rfl)))
    (RunStep.abort ⟨[.failed, .waiting 0 false], 4⟩ 0 rfl)

/-- C5 as amended: a failing item triggers no cancellation of siblings — no
run step moves a still-waiting task anywhere except into execution — but the
first failure propagates immediately: as soon as any task has failed, the
abort step is enabled, halting the run without waiting for the remaining
dispatched work to settle (failures are not collected). -/
theorem first_failure_propagates_without_cancellation (r r' : Run)
    (h : RunStep r r') :
    (∀ i k f, r.sched.tasks.get? i = some (.waiting k f) →
      r'.sched.tasks.get? i = some (.waiting k f) ∨
        r'.sched.tasks.get? i = some (.active k f)) ∧
    (∀ i, r'.sched.tasks.get? i = some .failed → r'.halted = false →
      RunStep r' ⟨r'.sched, true⟩) := by
  constructor
  · intro i k f hget
    cases h with
    | abort s j hj => exact Or.inl hget
    | sched hs =>
      cases hs with
      | acquire j k2 f2 m hj hm =>
        by_cases hij : j = i
        · subst hij
          rw [hget] at hj
          injection hj with hj
          cases hj
          exact Or.inr (get?_set_self _ j _ _ hget)
        · exact Or.inl (by rw [get?_set_ne _ j i _ hij]; exact hget)
      | work j k2 f2 hj =>
        by_cases hij : j = i
        · subst hij
          rw [hget] at hj
          cases hj
        · exact Or.inl (by rw [get?_set_ne _ j i _ hij]; exact hget)
      | finishOk j hj =>
        by_cases hij : j = i
        · subst hij
          rw [hget] at hj
          cases hj
        · exact Or.inl (by rw [get?_set_ne _ j i _ hij]; exact hget)
      | finishFail j hj =>
        by_cases hij : j = i
        · subst hij
          rw [hget] at hj
          cases hj
        · exact Or.inl (by rw [get?_set_ne _ j i _ hij]; exact hget)
  · intro i hfail hlive
    cases h with
    | sched hs => exact RunStep.abort _ i hfail
    | abort s j hj => cases hlive

/-- Witness for the amended C5 on a concrete acquire step. -/
theorem first_failure_propagates_without_cancellation_witness :
    (∀ i k f, (⟨⟨[TaskSt.waiting 0 true], 1⟩, false⟩ : Run).sched.tasks.get? i
        = some (.waiting k f) →
      (⟨⟨[TaskSt.active 0 true], 0⟩, false⟩ : Run).sched.tasks.get? i
          = some (.waiting k f) ∨
        (⟨⟨[TaskSt.active 0 true], 0⟩, false⟩ : Run).sched.tasks.get? i
          = some (.active k f)) ∧
    (∀ i, (⟨⟨[TaskSt.active 0 true], 0⟩, false⟩ : Run).sched.tasks.get? i
        = some .failed →
      (⟨⟨[TaskSt.active 0 true], 0⟩, false⟩ : Run).halted = false →
      RunStep (⟨⟨[TaskSt.active 0 true], 0⟩, false⟩ : Run)
        ⟨(⟨⟨[TaskSt.active 0 true], 0⟩, false⟩ : Run).sched, true⟩) :=
  first_failure_propagates_without_cancellation
    ⟨⟨[TaskSt.waiting 0 true], 1⟩, false⟩ ⟨⟨[TaskSt.active 0 true], 0⟩, false⟩
    (RunStep.sched (Step.acquire ⟨[TaskSt.waiting 0 true], 1⟩ 0 0 true 0 rfl rfl))

end MiteneDownload
